import Mathlib

/-!
Shallow embedding of `src/types/query_root.rs` from the async-graphql repository:
the root-query dispatcher (`QueryRoot::resolve_field`) and the build-phase
type-info augmenter (`QueryRoot::create_type_info`).

External collaborators (the inner user resolver, the introspection payload
builders, SDL export, argument parsing) are not part of the source slice; they
appear either as abstract function-valued fields of `InnerResolver` or as
definitions whose doc comment starts with `Modelled from the spec:`.
-/

set_option autoImplicit false

/-- The `IntrospectionMode` enum from the schema module (`schema::IntrospectionMode`). -/
inductive IntrospectionMode where
  | Enabled
  | Disabled
  | IntrospectionOnly
deriving DecidableEq, Repr

/-- A source position (`Pos`): line and column. -/
structure Pos where
  line : Nat
  column : Nat
deriving DecidableEq, Repr

/-- Embedding of `ServerError`: a message plus the list of source locations.
`ServerError::new(message, pos)` fills `locations` from the optional position. -/
structure ServerError where
  message : String
  locations : List Pos
deriving DecidableEq, Repr

/-- Embedding of `ServerError::new`. -/
def ServerError.new (message : String) (pos : Option Pos) : ServerError :=
  { message := message, locations := pos.toList }

/-- Embedding of the GraphQL `Value` type (the variants exercised by this slice). -/
inductive GValue where
  | null
  | boolean (b : Bool)
  | number (n : Int)
  | str (s : String)
  | list (xs : List GValue)

/-- Embedding of `registry::MetaInputValue`. -/
structure MetaInputValue where
  name : String
  description : Option String
  ty : String
  default_value : Option String
  visible : Option Unit
  inaccessible : Bool
  tags : List String
  is_secret : Bool
deriving DecidableEq, Repr

/-- Embedding of the `Deprecation` enum (defaulted to `NoDeprecated` in this slice). -/
inductive Deprecation where
  | noDeprecated
  | deprecated (reason : Option String)
deriving DecidableEq, Repr

/-- Embedding of `CacheControl` (defaulted in this slice). -/
structure CacheControl where
  isPublic : Bool := true
  maxAge : Nat := 0
deriving DecidableEq, Repr

/-- Embedding of `registry::MetaField`. `visible` and `compute_complexity`
hold optional opaque callbacks in the source, modelled as `Option Unit`. -/
structure MetaField where
  name : String
  description : Option String
  args : List (String × MetaInputValue)
  ty : String
  deprecation : Deprecation := .noDeprecated
  cache_control : CacheControl := {}
  external : Bool
  requires : Option String
  provides : Option String
  shareable : Bool
  inaccessible : Bool
  tags : List String
  visible : Option Unit
  compute_complexity : Option Unit
  override_from : Option String
deriving DecidableEq, Repr

/-- Embedding of `registry::MetaType`: only the `Object` variant (its field map)
is inspected by this slice; every other variant is collapsed into `nonObject`. -/
inductive MetaType where
  | object (fields : List (String × MetaField))
  | nonObject
deriving DecidableEq, Repr

/-- First-match lookup in an association list keyed by strings (the embedding of
`BTreeMap::get` / `IndexMap::get` on maps whose keys are unique). -/
def lookup_key {α : Type} (m : List (String × α)) (k : String) : Option α :=
  match m with
  | [] => none
  | p :: rest => if p.1 = k then some p.2 else lookup_key rest k

/-- Key membership in an association list. -/
def contains_key {α : Type} (m : List (String × α)) (k : String) : Bool :=
  match m with
  | [] => false
  | p :: rest => if p.1 = k then true else contains_key rest k

/-- Embedding of `IndexMap::insert`: replace in place when the key is present,
append otherwise. -/
def index_insert {α : Type} (m : List (String × α)) (k : String) (v : α) :
    List (String × α) :=
  if contains_key m k then m.map (fun p => if p.1 = k then (k, v) else p)
  else m ++ [(k, v)]

/-- Replace the value stored at a key (embedding of mutation through `get_mut`). -/
def update_key {α : Type} (m : List (String × α)) (k : String) (v : α) :
    List (String × α) :=
  m.map (fun p => if p.1 = k then (k, v) else p)

/-- Number of entries of an association list carrying a given key. -/
def count_key {α : Type} (m : List (String × α)) (k : String) : Nat :=
  (m.filter (fun p => p.1 = k)).length

/-- Embedding of the parts of `registry::Registry` read by this slice.
`has_entities` and `federation_sdl` stand for collaborator calls:
`has_entities` is modelled from the spec (true iff at least one entity-bearing
type is registered) and `federation_sdl` is modelled from the spec as the
result of `export_sdl(SDLExportOptions::new().federation())`. -/
structure Registry where
  introspection_mode : IntrospectionMode
  enable_federation : Bool
  has_entities : Bool
  types : List (String × MetaType)
  federation_sdl : String
deriving DecidableEq, Repr

/-- Embedding of the `Service` struct (`_Service`): its single field `sdl`. -/
structure Service where
  sdl : Option String
deriving DecidableEq, Repr

/-- The per-dispatch context visible to `QueryRoot::resolve_field`:
the schema registry (`ctx.schema_env.registry`), the request mode
(`ctx.query_env.introspection_mode`), the requested field
(`ctx.item.node.name.node`, `ctx.item.pos`, `ctx.item.node.arguments`) and the
set returned by `find_visible_types(ctx)` (an external collaborator, supplied
here as data). -/
structure Context where
  registry : Registry
  query_introspection_mode : IntrospectionMode
  field_name : String
  field_pos : Pos
  args : List (String × GValue)
  visible_types : List String

/-- The abstract collaborators invoked by the dispatcher: the inner user
resolver (`T : ObjectType`) and the external `OutputType::resolve`
implementations for the introspection / federation payload objects. -/
structure InnerResolver where
  resolve_schema : List String → Except ServerError GValue
  resolve_type : MetaType → Except ServerError GValue
  find_entity : GValue → Except ServerError (Option GValue)
  resolve_service : Service → Except ServerError GValue
  resolve_field_delegate : Except ServerError (Option GValue)

/-- Embedding of `QueryRoot<T>`: a wrapper holding exactly the inner resolver. -/
structure QueryRoot where
  inner : InnerResolver

/-- The introspection gate on one mode value, as written in the source:
`matches!(mode, IntrospectionMode::Enabled | IntrospectionMode::IntrospectionOnly)`. -/
def introspection_allowed (m : IntrospectionMode) : Bool :=
  match m with
  | .Enabled => true
  | .IntrospectionOnly => true
  | .Disabled => false

/-- The two-flag introspection gate from `resolve_field` (source lines 29-35):
both the schema-level and the request-level mode must allow introspection. -/
def can_introspect (schemaMode queryMode : IntrospectionMode) : Bool :=
  introspection_allowed schemaMode && introspection_allowed queryMode

/-- The introspection-only test from `resolve_field` (source lines 67-69):
either mode equals `IntrospectionOnly`. -/
def is_introspection_only (schemaMode queryMode : IntrospectionMode) : Bool :=
  schemaMode == IntrospectionMode.IntrospectionOnly
    || queryMode == IntrospectionMode.IntrospectionOnly

/-- Modelled from the spec: `Context::param_value::<String>` reads the required
string argument, failing with an argument-validation error carrying the field
source position when the argument is absent or not a string. The source of
`param_value` is outside this slice. -/
def param_value_string (ctx : Context) (name : String) :
    Except ServerError (Pos × String) :=
  match lookup_key ctx.args name with
  | some (GValue.str s) => Except.ok (ctx.field_pos, s)
  | _ =>
      Except.error
        (ServerError.new ("Invalid value for argument " ++ name)
          (some ctx.field_pos))

/-- Modelled from the spec: `Context::param_value::<Vec<Any>>` reads the
required list argument, failing with an argument-validation error carrying the
field source position when the argument is absent or not a list. The source of
`param_value` is outside this slice. -/
def param_value_any_list (ctx : Context) (name : String) :
    Except ServerError (Pos × List GValue) :=
  match lookup_key ctx.args name with
  | some (GValue.list xs) => Except.ok (ctx.field_pos, xs)
  | _ =>
      Except.error
        (ServerError.new ("Invalid value for argument " ++ name)
          (some ctx.field_pos))

/-- Embedding of the `try_join_all` loop of the `_entities` branch: each
representation is sent to `inner.find_entity`; an `Ok(None)` answer becomes the
error `Entity not found.` at the position of the `_entities` field; aggregation
is fail-fast and order-preserving. -/
def resolve_entities (self : QueryRoot) (pos : Pos) :
    List GValue → Except ServerError (List GValue)
  | [] => Except.ok []
  | item :: rest =>
      match self.inner.find_entity item with
      | Except.error e => Except.error e
      | Except.ok none =>
          Except.error (ServerError.new "Entity not found." (some pos))
      | Except.ok (some v) =>
          match resolve_entities self pos rest with
          | Except.error e => Except.error e
          | Except.ok vs => Except.ok (v :: vs)

/-- The `_entities` branch of `resolve_field` (source lines 74-84). -/
def entities_branch (self : QueryRoot) (ctx : Context) :
    Except ServerError (Option GValue) := do
  let pr ← param_value_any_list ctx "representations"
  let res ← resolve_entities self ctx.field_pos pr.2
  pure (some (GValue.list res))

/-- The `_service` branch of `resolve_field` (source lines 85-100): resolve a
`Service` value whose `sdl` field is `Some` of the federation-flavoured SDL. -/
def service_branch (self : QueryRoot) (ctx : Context) :
    Except ServerError (Option GValue) :=
  (self.inner.resolve_service { sdl := some ctx.registry.federation_sdl }).map some

/-- The `__schema` branch of `resolve_field` (source lines 36-46). -/
def schema_branch (self : QueryRoot) (ctx : Context) :
    Except ServerError (Option GValue) :=
  (self.inner.resolve_schema ctx.visible_types).map some

/-- The `__type` branch of `resolve_field` (source lines 47-63): read the
required `name` argument, look the name up in the registry type table, keep it
only when visible, and resolve the resulting `Option` payload (`None` resolves
to `Value::Null`, the external `OutputType` impl for `Option`). -/
def type_branch (self : QueryRoot) (ctx : Context) :
    Except ServerError (Option GValue) :=
  match param_value_string ctx "name" with
  | Except.error e => Except.error e
  | Except.ok pr =>
      match (lookup_key ctx.registry.types pr.2).filter
          (fun _ => ctx.visible_types.contains pr.2) with
      | none => Except.ok (some GValue.null)
      | some ty => (self.inner.resolve_type ty).map some

/-- The part of `resolve_field` after the introspection block (source lines
67-105): introspection-only suppression, then the federation fields, then
delegation to the inner resolver. -/
def resolve_field_rest (self : QueryRoot) (ctx : Context) :
    Except ServerError (Option GValue) :=
  if is_introspection_only ctx.registry.introspection_mode
      ctx.query_introspection_mode then
    Except.ok none
  else if ctx.registry.enable_federation || ctx.registry.has_entities then
    if ctx.field_name = "_entities" then entities_branch self ctx
    else if ctx.field_name = "_service" then service_branch self ctx
    else self.inner.resolve_field_delegate
  else self.inner.resolve_field_delegate

/-- Embedding of `QueryRoot::resolve_field` (the `ContainerType` impl,
source lines 28-106). -/
def resolve_field (self : QueryRoot) (ctx : Context) :
    Except ServerError (Option GValue) :=
  if can_introspect ctx.registry.introspection_mode
      ctx.query_introspection_mode then
    if ctx.field_name = "__schema" then schema_branch self ctx
    else if ctx.field_name = "__type" then type_branch self ctx
    else resolve_field_rest self ctx
  else resolve_field_rest self ctx

/-- The `__schema` field descriptor inserted by `create_type_info`
(source lines 127-146); `schema_type` is the name returned by
`__Schema::create_type_info`. -/
def schema_meta_field (schema_type : String) : MetaField :=
  { name := "__schema"
    description := some "Access the current type schema of this server."
    args := []
    ty := schema_type
    external := false
    requires := none
    provides := none
    shareable := false
    inaccessible := false
    tags := []
    visible := none
    compute_complexity := none
    override_from := none }

/-- The `name: String!` argument descriptor of the `__type` field
(source lines 153-165). -/
def name_meta_input_value : MetaInputValue :=
  { name := "name"
    description := none
    ty := "String!"
    default_value := none
    visible := none
    inaccessible := false
    tags := []
    is_secret := false }

/-- The `__type` field descriptor inserted by `create_type_info`
(source lines 148-181). -/
def type_meta_field : MetaField :=
  { name := "__type"
    description := some "Request the type information of a single type."
    args := [("name", name_meta_input_value)]
    ty := "__Type"
    external := false
    requires := none
    provides := none
    shareable := false
    inaccessible := false
    tags := []
    visible := none
    compute_complexity := none
    override_from := none }

/-- Modelled from the spec: `T::create_type_info` for the inner root type is
generated code outside this slice; it registers the root object type (with the
user field map) under its type name when not already registered, and returns
the type name. -/
def inner_create_type_info (tn : String) (userFields : List (String × MetaField))
    (r : Registry) : Registry × String :=
  if contains_key r.types tn then (r, tn)
  else ({ r with types := r.types ++ [(tn, MetaType.object userFields)] }, tn)

/-- Modelled from the spec: `__Schema::create_type_info` belongs to the
type-metadata model, outside this slice; it registers the introspection types
when not already registered and returns the name of the schema type. -/
def schema_create_type_info (r : Registry) : Registry × String :=
  (if contains_key r.types "__Schema" then r
   else { r with types := r.types ++ [("__Schema", MetaType.nonObject)] },
   "__Schema")

/-- Embedding of the augmentation step of `QueryRoot::create_type_info`
(source lines 121-184): unless introspection is disabled at the schema level,
build the `__Schema` metadata and insert the `__schema` and `__type`
descriptors into the root object field map under `tn` (`T::type_name()`). -/
def augment_root_type (tn : String) (r1 : Registry) : Registry :=
  if introspection_allowed r1.introspection_mode then
    let q := schema_create_type_info r1
    let r2 := q.1
    let schema_type := q.2
    match lookup_key r2.types tn with
    | some (MetaType.object fields) =>
        let fields1 := index_insert fields "__schema" (schema_meta_field schema_type)
        let fields2 := index_insert fields1 "__type" type_meta_field
        { r2 with types := update_key r2.types tn (MetaType.object fields2) }
    | _ => r2
  else r1

/-- Embedding of `QueryRoot::create_type_info` (source lines 119-187): the
inner root type is built first (`userFields` being the field map the generated
inner build registers), then the augmentation runs; the root name is returned. -/
def create_type_info (tn : String) (userFields : List (String × MetaField))
    (r : Registry) : Registry × String :=
  let p := inner_create_type_info tn userFields r
  (augment_root_type tn p.1, p.2)

/-- A concrete inner resolver used to instantiate universally quantified
theorems on closed inputs: string representations resolve to themselves,
every other representation is unresolvable. -/
def sample_inner : InnerResolver :=
  { resolve_schema := fun _ => Except.ok (GValue.str "schema-payload")
    resolve_type := fun _ => Except.ok (GValue.str "type-payload")
    find_entity := fun v =>
      match v with
      | GValue.str s => Except.ok (some (GValue.str s))
      | _ => Except.ok none
    resolve_service := fun s =>
      Except.ok (GValue.str (Option.getD s.sdl "absent"))
    resolve_field_delegate := Except.ok (some (GValue.str "delegated")) }

/-- A concrete `QueryRoot` wrapping `sample_inner`. -/
def sample_root : QueryRoot := { inner := sample_inner }

/-- A concrete registry builder over the three knobs the claims vary. -/
def mk_registry (m : IntrospectionMode) (fed ents : Bool) : Registry :=
  { introspection_mode := m
    enable_federation := fed
    has_entities := ents
    types := [("User", MetaType.object []), ("Hidden", MetaType.nonObject)]
    federation_sdl := "type User" }

/-- A concrete context builder over the knobs the claims vary. -/
def mk_ctx (m1 m2 : IntrospectionMode) (fed ents : Bool) (name : String)
    (args : List (String × GValue)) : Context :=
  { registry := mk_registry m1 fed ents
    query_introspection_mode := m2
    field_name := name
    field_pos := { line := 3, column := 7 }
    args := args
    visible_types := ["User"] }

/-- Helper: the dispatcher falls through to the non-introspection part whenever
the requested field is neither `__schema` nor `__type`. -/
theorem resolve_field_eq_rest (self : QueryRoot) (ctx : Context)
    (h1 : ctx.field_name ≠ "__schema") (h2 : ctx.field_name ≠ "__type") :
    resolve_field self ctx = resolve_field_rest self ctx := by
  cases hc : can_introspect ctx.registry.introspection_mode
      ctx.query_introspection_mode <;>
    simp [resolve_field, hc, h1, h2]

/-- Helper: `is_introspection_only` is false exactly when neither mode is
`IntrospectionOnly`. -/
theorem is_introspection_only_false (s q : IntrospectionMode)
    (h1 : s ≠ IntrospectionMode.IntrospectionOnly)
    (h2 : q ≠ IntrospectionMode.IntrospectionOnly) :
    is_introspection_only s q = false := by
  cases s <;> cases q <;> simp_all [is_introspection_only]

/-- Helper: reduction of the non-introspection part to the `_entities` branch. -/
theorem resolve_field_rest_entities (self : QueryRoot) (ctx : Context)
    (h1 : ctx.registry.introspection_mode ≠ IntrospectionMode.IntrospectionOnly)
    (h2 : ctx.query_introspection_mode ≠ IntrospectionMode.IntrospectionOnly)
    (hfed : (ctx.registry.enable_federation || ctx.registry.has_entities) = true)
    (hname : ctx.field_name = "_entities") :
    resolve_field_rest self ctx = entities_branch self ctx := by
  simp [resolve_field_rest, is_introspection_only_false _ _ h1 h2, hfed, hname]

/-- Helper: reduction of the non-introspection part to the `_service` branch. -/
theorem resolve_field_rest_service (self : QueryRoot) (ctx : Context)
    (h1 : ctx.registry.introspection_mode ≠ IntrospectionMode.IntrospectionOnly)
    (h2 : ctx.query_introspection_mode ≠ IntrospectionMode.IntrospectionOnly)
    (hfed : (ctx.registry.enable_federation || ctx.registry.has_entities) = true)
    (hname : ctx.field_name = "_service") :
    resolve_field_rest self ctx = service_branch self ctx := by
  simp [resolve_field_rest, is_introspection_only_false _ _ h1 h2, hfed, hname]

/-- C1: the introspection gate is the conjunction of the two mode flags, each
mode passing exactly when it is `Enabled` or `IntrospectionOnly`; whenever at
least one mode is `Disabled`, the dispatcher skips the introspection block and
runs only its non-introspection remainder. -/
theorem introspection_gate_and_dispatch :
    (∀ s q : IntrospectionMode,
        can_introspect s q = true ↔
          ((s = IntrospectionMode.Enabled ∨ s = IntrospectionMode.IntrospectionOnly) ∧
           (q = IntrospectionMode.Enabled ∨ q = IntrospectionMode.IntrospectionOnly)))
    ∧ (∀ (self : QueryRoot) (ctx : Context),
        ctx.registry.introspection_mode = IntrospectionMode.Disabled ∨
          ctx.query_introspection_mode = IntrospectionMode.Disabled →
        resolve_field self ctx = resolve_field_rest self ctx) := by
  constructor
  · intro s q
    cases s <;> cases q <;> simp [can_introspect, introspection_allowed]
  · intro self ctx h
    have hc : can_introspect ctx.registry.introspection_mode
        ctx.query_introspection_mode = false := by
      rcases h with h | h <;>
        · rw [h]
          cases ctx.query_introspection_mode <;>
            cases ctx.registry.introspection_mode <;>
              simp [can_introspect, introspection_allowed]
    simp [resolve_field, hc]

/-- Witness for C1 at concrete inputs: schema mode `Disabled`, request mode
`Enabled`, field `__schema`; the dispatch equals the non-introspection rest. -/
theorem introspection_gate_and_dispatch_witness :
    resolve_field sample_root
        (mk_ctx IntrospectionMode.Disabled IntrospectionMode.Enabled false false
          "__schema" []) =
      resolve_field_rest sample_root
        (mk_ctx IntrospectionMode.Disabled IntrospectionMode.Enabled false false
          "__schema" []) :=
  introspection_gate_and_dispatch.2 sample_root
    (mk_ctx IntrospectionMode.Disabled IntrospectionMode.Enabled false false
      "__schema" []) (Or.inl rfl)

/-- C2: when either mode is `IntrospectionOnly`, every field other than
`__schema` and `__type` (federation fields included) resolves to no value:
`Ok(None)`, never an error nor a delegated result. -/
theorem introspection_only_suppresses_everything (self : QueryRoot) (ctx : Context)
    (hio : ctx.registry.introspection_mode = IntrospectionMode.IntrospectionOnly ∨
      ctx.query_introspection_mode = IntrospectionMode.IntrospectionOnly)
    (h1 : ctx.field_name ≠ "__schema") (h2 : ctx.field_name ≠ "__type") :
    resolve_field self ctx = Except.ok none := by
  rw [resolve_field_eq_rest self ctx h1 h2]
  have hone : is_introspection_only ctx.registry.introspection_mode
      ctx.query_introspection_mode = true := by
    rcases hio with h | h <;> simp [is_introspection_only, h]
  simp [resolve_field_rest, hone]

/-- Witness for C2 at concrete inputs: schema mode `IntrospectionOnly`, request
mode `Enabled`, field `_entities` with federation on; the result is `Ok(None)`. -/
theorem introspection_only_suppresses_everything_witness :
    resolve_field sample_root
        (mk_ctx IntrospectionMode.IntrospectionOnly IntrospectionMode.Enabled true
          true "_entities" [("representations", GValue.list [GValue.str "a"])]) =
      Except.ok none :=
  introspection_only_suppresses_everything sample_root
    (mk_ctx IntrospectionMode.IntrospectionOnly IntrospectionMode.Enabled true true
      "_entities" [("representations", GValue.list [GValue.str "a"])])
    (Or.inl rfl) (by decide) (by decide)

/-- C3: with no introspection-only suppression in force, the federation fields
are reachable exactly when federation is enabled or at least one entity-bearing
type is registered (boolean OR, each disjunct sufficient on its own); otherwise
the dispatch is delegated to the inner resolver. -/
theorem federation_fields_gate (self : QueryRoot) (ctx : Context)
    (h1 : ctx.registry.introspection_mode ≠ IntrospectionMode.IntrospectionOnly)
    (h2 : ctx.query_introspection_mode ≠ IntrospectionMode.IntrospectionOnly)
    (h3 : ctx.field_name = "_entities" ∨ ctx.field_name = "_service") :
    ((ctx.registry.enable_federation || ctx.registry.has_entities) = true →
        resolve_field self ctx =
          (if ctx.field_name = "_entities" then entities_branch self ctx
           else service_branch self ctx))
    ∧ ((ctx.registry.enable_federation || ctx.registry.has_entities) = false →
        resolve_field self ctx = self.inner.resolve_field_delegate) := by
  have hns : ctx.field_name ≠ "__schema" := by
    rcases h3 with h | h <;> simp [h]
  have hnt : ctx.field_name ≠ "__type" := by
    rcases h3 with h | h <;> simp [h]
  rw [resolve_field_eq_rest self ctx hns hnt]
  constructor
  · intro hfed
    rcases h3 with h | h
    · rw [resolve_field_rest_entities self ctx h1 h2 hfed h, if_pos h]
    · rw [resolve_field_rest_service self ctx h1 h2 hfed h, if_neg (by simp [h])]
  · intro hfed
    simp [resolve_field_rest, is_introspection_only_false _ _ h1 h2, hfed]

/-- Witness for C3 at concrete inputs: federation disabled but one entity type
registered, field `_service`; the service branch is taken. -/
theorem federation_fields_gate_witness :
    resolve_field sample_root
        (mk_ctx IntrospectionMode.Enabled IntrospectionMode.Enabled false true
          "_service" []) =
      (if (mk_ctx IntrospectionMode.Enabled IntrospectionMode.Enabled false true
            "_service" []).field_name = "_entities" then
        entities_branch sample_root
          (mk_ctx IntrospectionMode.Enabled IntrospectionMode.Enabled false true
            "_service" [])
      else
        service_branch sample_root
          (mk_ctx IntrospectionMode.Enabled IntrospectionMode.Enabled false true
            "_service" [])) :=
  (federation_fields_gate sample_root
      (mk_ctx IntrospectionMode.Enabled IntrospectionMode.Enabled false true
        "_service" [])
      (by decide) (by decide) (Or.inr rfl)).1 (by decide)

/-- C10: whenever the `_service` branch is taken, the `Service` object handed
to the output resolver carries `sdl = Some(..)` — the federation SDL rendered
from the registry; an absent `sdl` is unreachable. -/
theorem service_sdl_always_present (self : QueryRoot) (ctx : Context)
    (h1 : ctx.registry.introspection_mode ≠ IntrospectionMode.IntrospectionOnly)
    (h2 : ctx.query_introspection_mode ≠ IntrospectionMode.IntrospectionOnly)
    (hfed : (ctx.registry.enable_federation || ctx.registry.has_entities) = true)
    (hname : ctx.field_name = "_service") :
    resolve_field self ctx =
      (self.inner.resolve_service
        { sdl := some ctx.registry.federation_sdl }).map some
    ∧ (Service.mk (some ctx.registry.federation_sdl)).sdl.isSome = true := by
  constructor
  · rw [resolve_field_eq_rest self ctx (by simp [hname]) (by simp [hname]),
      resolve_field_rest_service self ctx h1 h2 hfed hname]
    rfl
  · rfl

/-- Witness for C10 at concrete inputs: federation on, field `_service`. -/
theorem service_sdl_always_present_witness :
    resolve_field sample_root
        (mk_ctx IntrospectionMode.Enabled IntrospectionMode.Enabled true false
          "_service" []) =
      (sample_root.inner.resolve_service
        { sdl := some (mk_ctx IntrospectionMode.Enabled IntrospectionMode.Enabled
            true false "_service" []).registry.federation_sdl }).map some
    ∧ (Service.mk (some (mk_ctx IntrospectionMode.Enabled IntrospectionMode.Enabled
        true false "_service" []).registry.federation_sdl)).sdl.isSome = true :=
  service_sdl_always_present sample_root
    (mk_ctx IntrospectionMode.Enabled IntrospectionMode.Enabled true false
      "_service" [])
    (by decide) (by decide) (by decide) rfl

/-- C6: dispatching `_entities` with an empty representations list yields a
present empty list: no error and no delegation. -/
theorem entities_empty_list (self : QueryRoot) (ctx : Context)
    (h1 : ctx.registry.introspection_mode ≠ IntrospectionMode.IntrospectionOnly)
    (h2 : ctx.query_introspection_mode ≠ IntrospectionMode.IntrospectionOnly)
    (hfed : (ctx.registry.enable_federation || ctx.registry.has_entities) = true)
    (hname : ctx.field_name = "_entities")
    (hargs : lookup_key ctx.args "representations" = some (GValue.list [])) :
    resolve_field self ctx = Except.ok (some (GValue.list [])) := by
  rw [resolve_field_eq_rest self ctx (by simp [hname]) (by simp [hname]),
    resolve_field_rest_entities self ctx h1 h2 hfed hname]
  simp [entities_branch, param_value_any_list, hargs, resolve_entities]
  rfl

/-- Witness for C6 at concrete inputs. -/
theorem entities_empty_list_witness :
    resolve_field sample_root
        (mk_ctx IntrospectionMode.Enabled IntrospectionMode.Enabled true false
          "_entities" [("representations", GValue.list [])]) =
      Except.ok (some (GValue.list [])) :=
  entities_empty_list sample_root
    (mk_ctx IntrospectionMode.Enabled IntrospectionMode.Enabled true false
      "_entities" [("representations", GValue.list [])])
    (by decide) (by decide) (by decide) rfl rfl

/-- Helper: the `_entities` branch is the entity batch resolution of the
representations read from the field arguments. -/
theorem entities_branch_eq (self : QueryRoot) (ctx : Context) (reps : List GValue)
    (hargs : lookup_key ctx.args "representations" = some (GValue.list reps)) :
    entities_branch self ctx =
      (resolve_entities self ctx.field_pos reps).map
        (fun res => some (GValue.list res)) := by
  unfold entities_branch param_value_any_list
  rw [hargs]
  cases hres : resolve_entities self ctx.field_pos reps <;>
    simp [hres, Except.map, Except.bind, bind, pure, Except.pure]

/-- Helper: a successful entity batch has exactly one output per input, the
output at index `i` being the resolution of the input at index `i`. -/
theorem resolve_entities_ok_spec (self : QueryRoot) (pos : Pos)
    (reps : List GValue) :
    ∀ res, resolve_entities self pos reps = Except.ok res →
      res.length = reps.length ∧
        ∀ i rep, reps.get? i = some rep →
          ∃ v, res.get? i = some v ∧
            self.inner.find_entity rep = Except.ok (some v) := by
  induction reps with
  | nil =>
      intro res h
      simp [resolve_entities] at h
      subst h
      exact ⟨rfl, by intro i rep hrep; simp at hrep⟩
  | cons item rest ih =>
      intro res h
      rw [resolve_entities] at h
      cases hfe : self.inner.find_entity item with
      | error e => rw [hfe] at h; cases h
      | ok o =>
          rw [hfe] at h
          cases o with
          | none => cases h
          | some v =>
              cases hrec : resolve_entities self pos rest with
              | error e => rw [hrec] at h; cases h
              | ok vs =>
                  rw [hrec] at h
                  obtain rfl : res = v :: vs := by
                    cases h; rfl
                  obtain ⟨hlen, hidx⟩ := ih vs hrec
                  refine ⟨by simp [hlen], ?_⟩
                  intro i rep hrep
                  cases i with
                  | zero =>
                      simp at hrep
                      subst hrep
                      exact ⟨v, by simp, hfe⟩
                  | succ n =>
                      simp only [List.get?_cons_succ] at hrep ⊢
                      exact hidx n rep hrep

/-- Helper: when no representation produces a hard resolver error but at least
one is unresolvable, the batch fails with the entity-not-found error at the
position given to the batch (the `_entities` field position). -/
theorem resolve_entities_not_found (self : QueryRoot) (pos : Pos)
    (reps : List GValue)
    (hnoerr : ∀ r ∈ reps, ∀ e, self.inner.find_entity r ≠ Except.error e)
    (hmiss : ∃ r ∈ reps, self.inner.find_entity r = Except.ok none) :
    resolve_entities self pos reps =
      Except.error (ServerError.new "Entity not found." (some pos)) := by
  induction reps with
  | nil => simp at hmiss
  | cons item rest ih =>
      cases hfe : self.inner.find_entity item with
      | error e => exact absurd hfe (hnoerr item (by simp) e)
      | ok o =>
          cases o with
          | none => rw [resolve_entities, hfe]
          | some v =>
              have hmiss' : ∃ r ∈ rest,
                  self.inner.find_entity r = Except.ok none := by
                rcases hmiss with ⟨r, hr, hre⟩
                rcases List.mem_cons.mp hr with h | h
                · subst h; rw [hfe] at hre; cases hre
                · exact ⟨r, h, hre⟩
              have hrest := ih
                (fun r hr e => hnoerr r (List.mem_cons_of_mem _ hr) e) hmiss'
              rw [resolve_entities, hfe, hrest]

/-- C4: when some representation in the `_entities` batch is unresolvable (and
no representation produces a hard resolver error), the whole call fails with
the entity-not-found error located at the `_entities` field position, the other
representations' successes notwithstanding. -/
theorem entities_fail_fast (self : QueryRoot) (ctx : Context) (reps : List GValue)
    (h1 : ctx.registry.introspection_mode ≠ IntrospectionMode.IntrospectionOnly)
    (h2 : ctx.query_introspection_mode ≠ IntrospectionMode.IntrospectionOnly)
    (hfed : (ctx.registry.enable_federation || ctx.registry.has_entities) = true)
    (hname : ctx.field_name = "_entities")
    (hargs : lookup_key ctx.args "representations" = some (GValue.list reps))
    (hnoerr : ∀ r ∈ reps, ∀ e, self.inner.find_entity r ≠ Except.error e)
    (hmiss : ∃ r ∈ reps, self.inner.find_entity r = Except.ok none) :
    resolve_field self ctx =
      Except.error
        { message := "Entity not found.", locations := [ctx.field_pos] } := by
  rw [resolve_field_eq_rest self ctx (by simp [hname]) (by simp [hname]),
    resolve_field_rest_entities self ctx h1 h2 hfed hname,
    entities_branch_eq self ctx reps hargs,
    resolve_entities_not_found self ctx.field_pos reps hnoerr hmiss]
  rfl

/-- Witness for C4 at concrete inputs: representations `[str "a", null,
str "c"]`, where `null` is unresolvable for `sample_inner` while the others
succeed; the whole call fails with the entity-not-found error at the field
position. -/
theorem entities_fail_fast_witness :
    resolve_field sample_root
        (mk_ctx IntrospectionMode.Enabled IntrospectionMode.Enabled true false
          "_entities"
          [("representations",
            GValue.list [GValue.str "a", GValue.null, GValue.str "c"])]) =
      Except.error
        { message := "Entity not found."
          locations := [{ line := 3, column := 7 }] } :=
  entities_fail_fast sample_root
    (mk_ctx IntrospectionMode.Enabled IntrospectionMode.Enabled true false
      "_entities"
      [("representations",
        GValue.list [GValue.str "a", GValue.null, GValue.str "c"])])
    [GValue.str "a", GValue.null, GValue.str "c"]
    (by decide) (by decide) (by decide) rfl rfl
    (by
      intro r hr e
      simp only [List.mem_cons, List.not_mem_nil, or_false] at hr
      rcases hr with rfl | rfl | rfl <;> exact fun h => Except.noConfusion h)
    ⟨GValue.null, by simp, rfl⟩

/-- C5: on a successful `_entities` dispatch the output list has one element
per representation and the element at index `i` is the resolution of the
representation at index `i` (input order preserved). -/
theorem entities_preserve_order (self : QueryRoot) (ctx : Context)
    (reps res : List GValue)
    (h1 : ctx.registry.introspection_mode ≠ IntrospectionMode.IntrospectionOnly)
    (h2 : ctx.query_introspection_mode ≠ IntrospectionMode.IntrospectionOnly)
    (hfed : (ctx.registry.enable_federation || ctx.registry.has_entities) = true)
    (hname : ctx.field_name = "_entities")
    (hargs : lookup_key ctx.args "representations" = some (GValue.list reps))
    (hok : resolve_field self ctx = Except.ok (some (GValue.list res))) :
    res.length = reps.length ∧
      ∀ i rep, reps.get? i = some rep →
        ∃ v, res.get? i = some v ∧
          self.inner.find_entity rep = Except.ok (some v) := by
  rw [resolve_field_eq_rest self ctx (by simp [hname]) (by simp [hname]),
    resolve_field_rest_entities self ctx h1 h2 hfed hname,
    entities_branch_eq self ctx reps hargs] at hok
  cases hres : resolve_entities self ctx.field_pos reps with
  | error e => rw [hres] at hok; cases hok
  | ok vs =>
      rw [hres] at hok
      simp only [Except.map, Except.ok.injEq, Option.some.injEq,
        GValue.list.injEq] at hok
      subst hok
      exact resolve_entities_ok_spec self ctx.field_pos reps vs hres

/-- Witness for C5 at concrete inputs: representations `[str "a", str "b"]`,
output `[str "a", str "b"]`. -/
theorem entities_preserve_order_witness :
    ([GValue.str "a", GValue.str "b"] : List GValue).length =
        ([GValue.str "a", GValue.str "b"] : List GValue).length ∧
      ∀ i rep, ([GValue.str "a", GValue.str "b"] : List GValue).get? i = some rep →
        ∃ v, ([GValue.str "a", GValue.str "b"] : List GValue).get? i = some v ∧
          sample_root.inner.find_entity rep = Except.ok (some v) :=
  entities_preserve_order sample_root
    (mk_ctx IntrospectionMode.Enabled IntrospectionMode.Enabled true false
      "_entities"
      [("representations", GValue.list [GValue.str "a", GValue.str "b"])])
    [GValue.str "a", GValue.str "b"] [GValue.str "a", GValue.str "b"]
    (by decide) (by decide) (by decide) rfl rfl rfl

/-- C7: with introspection permitted, `__type` on a name that is unregistered,
or registered but not visible, resolves to a present null value, not an error. -/
theorem type_unknown_or_invisible_is_null (self : QueryRoot) (ctx : Context)
    (n : String)
    (hci : can_introspect ctx.registry.introspection_mode
      ctx.query_introspection_mode = true)
    (hname : ctx.field_name = "__type")
    (harg : lookup_key ctx.args "name" = some (GValue.str n))
    (hmiss : lookup_key ctx.registry.types n = none ∨
      ctx.visible_types.contains n = false) :
    resolve_field self ctx = Except.ok (some GValue.null) := by
  rw [resolve_field]
  rw [if_pos hci, if_neg (by simp [hname]), if_pos hname]
  unfold type_branch param_value_string
  simp only [harg]
  rcases hmiss with h | h
  · rw [h]; rfl
  · cases hl : lookup_key ctx.registry.types n with
    | none => rfl
    | some t =>
        simp only [Option.filter]
        rw [if_neg (by simpa using h)]

/-- Witness for C7 at concrete inputs: the name `Ghost` is not registered in
`mk_registry`; the result is `Ok(Some(Null))`. -/
theorem type_unknown_or_invisible_is_null_witness :
    resolve_field sample_root
        (mk_ctx IntrospectionMode.Enabled IntrospectionMode.Enabled false false
          "__type" [("name", GValue.str "Ghost")]) =
      Except.ok (some GValue.null) :=
  type_unknown_or_invisible_is_null sample_root
    (mk_ctx IntrospectionMode.Enabled IntrospectionMode.Enabled false false
      "__type" [("name", GValue.str "Ghost")]) "Ghost"
    (by decide) rfl rfl (Or.inl (by decide))

/-- C8: with introspection permitted, `__type` without the required string
argument `name` (absent or of a non-string shape) fails with an
argument-validation error carrying the field source position. -/
theorem type_missing_name_argument (self : QueryRoot) (ctx : Context)
    (hci : can_introspect ctx.registry.introspection_mode
      ctx.query_introspection_mode = true)
    (hname : ctx.field_name = "__type")
    (harg : lookup_key ctx.args "name" = none ∨
      ∃ v, lookup_key ctx.args "name" = some v ∧ ∀ s, v ≠ GValue.str s) :
    ∃ msg, resolve_field self ctx =
      Except.error { message := msg, locations := [ctx.field_pos] } := by
  refine ⟨"Invalid value for argument name", ?_⟩
  rw [resolve_field]
  rw [if_pos hci, if_neg (by simp [hname]), if_pos hname]
  unfold type_branch param_value_string
  rcases harg with h | ⟨v, hv, hnv⟩
  · rw [h]; rfl
  · rw [hv]
    cases v with
    | str s => exact absurd rfl (hnv s)
    | null => rfl
    | boolean b => rfl
    | number m => rfl
    | list xs => rfl

/-- Witness for C8 at concrete inputs: `__type` dispatched with no arguments. -/
theorem type_missing_name_argument_witness :
    ∃ msg, resolve_field sample_root
        (mk_ctx IntrospectionMode.Enabled IntrospectionMode.Enabled false false
          "__type" []) =
      Except.error
        { message := msg, locations := [{ line := 3, column := 7 }] } :=
  type_missing_name_argument sample_root
    (mk_ctx IntrospectionMode.Enabled IntrospectionMode.Enabled false false
      "__type" [])
    (by decide) rfl (Or.inl rfl)

/-- Helper: a successful lookup implies key membership. -/
theorem lookup_some_contains {α : Type} (m : List (String × α)) (k : String)
    (v : α) (h : lookup_key m k = some v) : contains_key m k = true := by
  induction m with
  | nil => simp [lookup_key] at h
  | cons p rest ih =>
      rw [lookup_key] at h
      rw [contains_key]
      by_cases hp : p.1 = k
      · rw [if_pos hp]
      · rw [if_neg hp] at h
        rw [if_neg hp]
        exact ih h

/-- Helper: absence of a key is the same as a zero entry count. -/
theorem contains_false_count_zero {α : Type} (m : List (String × α)) (k : String) :
    contains_key m k = false ↔ count_key m k = 0 := by
  induction m with
  | nil => simp [contains_key, count_key]
  | cons p rest ih =>
      by_cases hp : p.1 = k <;>
        simp [contains_key, count_key, List.filter_cons, hp] <;>
        simpa [count_key] using ih

/-- Helper: lookup through an append when the key is in the left part. -/
theorem lookup_append_left {α : Type} (m l : List (String × α)) (k : String)
    (v : α) (h : lookup_key m k = some v) : lookup_key (m ++ l) k = some v := by
  induction m with
  | nil => simp [lookup_key] at h
  | cons p rest ih =>
      rw [List.cons_append, lookup_key]
      rw [lookup_key] at h
      by_cases hp : p.1 = k
      · rwa [if_pos hp] at h ⊢
      · rw [if_neg hp] at h
        rw [if_neg hp]
        exact ih h

/-- Helper: lookup through an append when the key misses the left part. -/
theorem lookup_append_right {α : Type} (m l : List (String × α)) (k : String)
    (h : contains_key m k = false) : lookup_key (m ++ l) k = lookup_key l k := by
  induction m with
  | nil => simp
  | cons p rest ih =>
      rw [contains_key] at h
      by_cases hp : p.1 = k
      · rw [if_pos hp] at h; cases h
      · rw [if_neg hp] at h
        rw [List.cons_append, lookup_key, if_neg hp]
        exact ih h

/-- Helper: lookup after an in-place replacement at a present key. -/
theorem lookup_update_self {α : Type} (m : List (String × α)) (k : String)
    (v : α) (h : contains_key m k = true) :
    lookup_key (update_key m k v) k = some v := by
  induction m with
  | nil => simp [contains_key] at h
  | cons p rest ih =>
      rw [contains_key] at h
      by_cases hp : p.1 = k
      · simp [update_key, lookup_key, hp]
      · rw [if_neg hp] at h
        simpa [update_key, lookup_key, hp] using ih h

/-- Helper: entry count across a cons cell. -/
theorem count_key_cons {α : Type} (p : String × α) (rest : List (String × α))
    (k : String) :
    count_key (p :: rest) k = (if p.1 = k then 1 else 0) + count_key rest k := by
  by_cases hp : p.1 = k <;>
    simp [count_key, List.filter_cons, hp, Nat.add_comm]

/-- Helper: in-place replacement never changes entry counts, for any key. -/
theorem count_update {α : Type} (m : List (String × α)) (k k' : String) (v : α) :
    count_key (update_key m k v) k' = count_key m k' := by
  induction m with
  | nil => rfl
  | cons p rest ih =>
      simp only [update_key, List.map_cons]
      rw [count_key_cons, count_key_cons]
      have ih' : count_key
          (List.map (fun p => if p.1 = k then (k, v) else p) rest) k' =
            count_key rest k' := ih
      rw [ih']
      congr 1
      by_cases hp : p.1 = k
      · rw [if_pos hp]
        by_cases hk : k = k'
        · rw [if_pos hk, if_pos (hp.trans hk)]
        · rw [if_neg hk, if_neg (fun hh => hk (hp.symm.trans hh))]
      · rw [if_neg hp]

/-- Helper: entry counts across an append. -/
theorem count_append {α : Type} (m l : List (String × α)) (k : String) :
    count_key (m ++ l) k = count_key m k + count_key l k := by
  simp [count_key, List.filter_append]

/-- Helper: inserting at a key held at most once leaves it held exactly once. -/
theorem count_index_insert_self {α : Type} (m : List (String × α)) (k : String)
    (v : α) (h : count_key m k ≤ 1) :
    count_key (index_insert m k v) k = 1 := by
  unfold index_insert
  by_cases hc : contains_key m k = true
  · rw [if_pos hc]
    have heq : count_key (update_key m k v) k = count_key m k :=
      count_update m k k v
    have hne : count_key m k ≠ 0 := by
      intro h0
      rw [(contains_false_count_zero m k).mpr h0] at hc
      cases hc
    have h1 : count_key m k = 1 := by omega
    unfold update_key at heq
    rw [heq, h1]
  · rw [if_neg hc]
    rw [count_append]
    have h0 : count_key m k = 0 :=
      (contains_false_count_zero m k).mp (by simpa using hc)
    have h1 : count_key [(k, v)] k = 1 := by simp [count_key]
    rw [h0, h1]

/-- Helper: inserting at one key does not change another key's count. -/
theorem count_index_insert_other {α : Type} (m : List (String × α))
    (k k' : String) (v : α) (hne : k' ≠ k) :
    count_key (index_insert m k v) k' = count_key m k' := by
  unfold index_insert
  by_cases hc : contains_key m k = true
  · rw [if_pos hc]
    have heq := count_update m k k' v
    unfold update_key at heq
    exact heq
  · rw [if_neg hc, count_append]
    have hkk : ¬ (k = k') := fun h => hne h.symm
    have h1 : count_key [(k, v)] k' = 0 := by simp [count_key, hkk]
    rw [h1, Nat.add_zero]

/-- Helper: lookup straight after an insert at the same key. -/
theorem lookup_index_insert_self {α : Type} (m : List (String × α)) (k : String)
    (v : α) : lookup_key (index_insert m k v) k = some v := by
  unfold index_insert
  by_cases hc : contains_key m k = true
  · rw [if_pos hc]
    have heq := lookup_update_self m k v hc
    unfold update_key at heq
    exact heq
  · rw [if_neg hc]
    rw [lookup_append_right m _ k (by simpa using hc)]
    simp [lookup_key]

/-- Helper: the inner build does not change the schema introspection mode. -/
theorem inner_create_mode (tn : String) (uf : List (String × MetaField))
    (r : Registry) :
    (inner_create_type_info tn uf r).1.introspection_mode =
      r.introspection_mode := by
  unfold inner_create_type_info
  by_cases hc : contains_key r.types tn = true <;> simp [hc]

/-- Helper: the augmentation does not change the schema introspection mode. -/
theorem augment_mode (tn : String) (r1 : Registry) :
    (augment_root_type tn r1).introspection_mode = r1.introspection_mode := by
  unfold augment_root_type schema_create_type_info
  by_cases hi : introspection_allowed r1.introspection_mode = true
  · rw [if_pos hi]
    by_cases hs : contains_key r1.types "__Schema" = true <;>
      simp only [hs, if_true, if_false, Bool.false_eq_true] <;>
      split <;> rfl
  · rw [if_neg hi]

/-- Helper: a mode other than `Disabled` passes the schema-level gate. -/
theorem introspection_allowed_of_ne (m : IntrospectionMode)
    (h : m ≠ IntrospectionMode.Disabled) : introspection_allowed m = true := by
  cases m <;> simp_all [introspection_allowed]

/-- Helper: when the gate passes and the root name is bound to an object field
map, the augmentation rebinds it to that map with the `__schema` descriptor
inserted and then the `__type` descriptor inserted. -/
theorem augment_root_type_spec (tn : String) (r1 : Registry)
    (fs : List (String × MetaField))
    (hmode : introspection_allowed r1.introspection_mode = true)
    (hlk : lookup_key r1.types tn = some (MetaType.object fs)) :
    lookup_key (augment_root_type tn r1).types tn =
      some (MetaType.object
        (index_insert
          (index_insert fs "__schema" (schema_meta_field "__Schema"))
          "__type" type_meta_field)) := by
  unfold augment_root_type schema_create_type_info
  rw [if_pos hmode]
  by_cases hs : contains_key r1.types "__Schema" = true
  · simp only [hs, if_true, hlk]
    have hct := lookup_some_contains r1.types tn _ hlk
    simpa using lookup_update_self r1.types tn
      (MetaType.object
        (index_insert
          (index_insert fs "__schema" (schema_meta_field "__Schema"))
          "__type" type_meta_field)) hct
  · have hlk2 : lookup_key (r1.types ++ [("__Schema", MetaType.nonObject)]) tn =
        some (MetaType.object fs) :=
      lookup_append_left r1.types _ tn _ hlk
    simp only [hs, if_false, Bool.false_eq_true, hlk2]
    have hct := lookup_some_contains _ tn _ hlk2
    simpa using lookup_update_self (r1.types ++ [("__Schema", MetaType.nonObject)])
      tn
      (MetaType.object
        (index_insert
          (index_insert fs "__schema" (schema_meta_field "__Schema"))
          "__type" type_meta_field)) hct

/-- Helper: the augmentation is the identity when the schema-level gate fails. -/
theorem augment_not_allowed (tn : String) (r : Registry)
    (h : introspection_allowed r.introspection_mode = false) :
    augment_root_type tn r = r := by
  unfold augment_root_type
  rw [if_neg (by simp [h])]

/-- C9: building the schema with schema-level mode `Disabled` leaves the root
field map without `__schema`/`__type` descriptors; with any other mode both
are present exactly once (the `__type` descriptor carrying the single required
`name: String!` argument), and running the build step a second time still
leaves exactly one of each. -/
theorem build_inserts_introspection_descriptors (r0 : Registry) (tn : String)
    (userFields : List (String × MetaField))
    (hfresh : contains_key r0.types tn = false)
    (hus : count_key userFields "__schema" = 0)
    (hut : count_key userFields "__type" = 0) :
    (r0.introspection_mode = IntrospectionMode.Disabled →
      lookup_key (create_type_info tn userFields r0).1.types tn =
          some (MetaType.object userFields) ∧
        count_key userFields "__schema" = 0 ∧ count_key userFields "__type" = 0)
    ∧ (r0.introspection_mode ≠ IntrospectionMode.Disabled →
      ∃ fs, lookup_key (create_type_info tn userFields r0).1.types tn =
          some (MetaType.object fs) ∧
        count_key fs "__schema" = 1 ∧ count_key fs "__type" = 1 ∧
        lookup_key fs "__type" = some type_meta_field ∧
        type_meta_field.args = [("name", name_meta_input_value)] ∧
        name_meta_input_value.ty = "String!" ∧
        ∃ fs2, lookup_key
            (create_type_info tn userFields
              (create_type_info tn userFields r0).1).1.types tn =
            some (MetaType.object fs2) ∧
          count_key fs2 "__schema" = 1 ∧ count_key fs2 "__type" = 1) := by
  have e1 : inner_create_type_info tn userFields r0 =
      ({ r0 with types := r0.types ++ [(tn, MetaType.object userFields)] }, tn) := by
    unfold inner_create_type_info
    rw [if_neg (by simp [hfresh])]
  have hlk1 : lookup_key (r0.types ++ [(tn, MetaType.object userFields)]) tn =
      some (MetaType.object userFields) := by
    rw [lookup_append_right r0.types _ tn hfresh]
    simp [lookup_key]
  have ecreate : create_type_info tn userFields r0 =
      (augment_root_type tn
        { r0 with types := r0.types ++ [(tn, MetaType.object userFields)] },
       tn) := by
    unfold create_type_info
    rw [e1]
  constructor
  · intro hd
    have hna : introspection_allowed r0.introspection_mode = false := by
      rw [hd]; rfl
    rw [ecreate,
      augment_not_allowed tn
        { r0 with types := r0.types ++ [(tn, MetaType.object userFields)] } hna]
    exact ⟨hlk1, hus, hut⟩
  · intro hnd
    have hall : introspection_allowed r0.introspection_mode = true :=
      introspection_allowed_of_ne _ hnd
    have hrun1 : lookup_key (create_type_info tn userFields r0).1.types tn =
        some (MetaType.object
          (index_insert
            (index_insert userFields "__schema" (schema_meta_field "__Schema"))
            "__type" type_meta_field)) := by
      rw [ecreate]
      exact augment_root_type_spec tn _ userFields hall hlk1
    set F1 := index_insert
        (index_insert userFields "__schema" (schema_meta_field "__Schema"))
        "__type" type_meta_field with hF1
    have hc1s : count_key F1 "__schema" = 1 := by
      rw [hF1, count_index_insert_other _ "__type" "__schema" _ (by decide)]
      exact count_index_insert_self _ _ _ (by simp [hus])
    have hc1t : count_key F1 "__type" = 1 := by
      rw [hF1]
      apply count_index_insert_self
      rw [count_index_insert_other userFields "__schema" "__type" _ (by decide),
        hut]
      omega
    have hl1t : lookup_key F1 "__type" = some type_meta_field := by
      rw [hF1]
      exact lookup_index_insert_self _ _ _
    set R1 := (create_type_info tn userFields r0).1 with hR1
    have hmode1 : R1.introspection_mode = r0.introspection_mode := by
      rw [hR1]
      simp only [ecreate]
      rw [augment_mode]
    have hcont2 : contains_key R1.types tn = true :=
      lookup_some_contains _ tn _ hrun1
    have e2 : inner_create_type_info tn userFields R1 = (R1, tn) := by
      unfold inner_create_type_info
      rw [if_pos hcont2]
    have ecreate2 : create_type_info tn userFields R1 =
        (augment_root_type tn R1, tn) := by
      unfold create_type_info
      rw [e2]
    have hrun2 : lookup_key (create_type_info tn userFields R1).1.types tn =
        some (MetaType.object
          (index_insert (index_insert F1 "__schema" (schema_meta_field "__Schema"))
            "__type" type_meta_field)) := by
      rw [ecreate2]
      exact augment_root_type_spec tn R1 F1 (by rw [hmode1]; exact hall) hrun1
    refine ⟨F1, hrun1, hc1s, hc1t, hl1t, rfl, rfl, ?_⟩
    refine ⟨index_insert (index_insert F1 "__schema" (schema_meta_field "__Schema"))
      "__type" type_meta_field, hrun2, ?_, ?_⟩
    · rw [count_index_insert_other _ "__type" "__schema" _ (by decide)]
      exact count_index_insert_self _ _ _ (by simp [hc1s])
    · apply count_index_insert_self
      rw [count_index_insert_other F1 "__schema" "__type" _ (by decide), hc1t]

/-- Witness for C9 at concrete inputs: an `Enabled` registry without a `Query`
type, an empty user field map; both descriptors appear exactly once after one
build and after two. -/
theorem build_inserts_introspection_descriptors_witness :
    ∃ fs, lookup_key
        (create_type_info "Query" []
          (mk_registry IntrospectionMode.Enabled false false)).1.types "Query" =
        some (MetaType.object fs) ∧
      count_key fs "__schema" = 1 ∧ count_key fs "__type" = 1 ∧
      lookup_key fs "__type" = some type_meta_field ∧
      type_meta_field.args = [("name", name_meta_input_value)] ∧
      name_meta_input_value.ty = "String!" ∧
      ∃ fs2, lookup_key
          (create_type_info "Query" []
            (create_type_info "Query" []
              (mk_registry IntrospectionMode.Enabled false false)).1).1.types
          "Query" =
          some (MetaType.object fs2) ∧
        count_key fs2 "__schema" = 1 ∧ count_key fs2 "__type" = 1 :=
  (build_inserts_introspection_descriptors
      (mk_registry IntrospectionMode.Enabled false false) "Query" []
      (by decide) rfl rfl).2 (by decide)
